import Mathlib

/-!
Verification of the LifePal backend specification against a shallow
embedding of the repository's source.

Each subsystem relevant to the claims is embedded as executable Lean
definitions translated from the Python source under src/backend/src:
file storage and quotas (files/api.py, files/tasks.py, files/utils.py),
scheduled notifications (notifications/models.py, notifications/api.py,
notifications/tasks.py), file shares (files/api.py, files/tasks.py),
push subscriptions (notifications/api.py), the tool registry fallback
(langchain_chat/tools/registry.py), the calculator tool
(langchain_chat/tools/math/calculator.py), and the reminder date/time
parser (notifications/utils.py).

The repository's files/models.py is not part of the provided source;
the few facts needed from it (fresh StorageQuota defaults, the derived
FileShare.is_expired property, StorageQuota.recalculate_usage) are
modelled from the specification and marked as such in doc comments.

Timestamps are modelled as wall-clock minutes (an Int); daylight-saving
shifts and sub-minute precision are outside every claim considered here.
-/

namespace FilesM

/-- Per-user storage quota row (files/models.py, mirrored by the fields the
API reads and writes). Integer fields follow Django IntegerField and are
modelled as Int. -/
structure StorageQuota where
  used_storage : Int
  total_quota : Int
  file_count : Int
  max_files : Int
deriving DecidableEq, Repr

/-- One stored UserFile record, restricted to the fields the quota and sweep
logic reads. -/
structure UserFile where
  fid : Nat
  file_size : Nat
  created_at : Int
  is_temporary : Bool
  expires_at : Option Int
deriving DecidableEq, Repr

/-- One user's slice of the database: their quota row and their file rows,
plus a fresh-id counter standing in for generated primary keys. -/
structure FState where
  quota : StorageQuota
  files : List UserFile
  nextId : Nat
deriving DecidableEq, Repr

inductive UploadRes where
  | quotaExceeded
  | maxFilesReached
  | ok
deriving DecidableEq, Repr

/-- Embeds upload_file (files/api.py lines 23-80): the quota check
`used_storage + file_size > total_quota`, then the file-count check
`file_count >= max_files`, each returning a 400 with no write; on success
the UserFile row is created and used_storage/file_count incremented. -/
def upload_file (s : FState) (size : Nat) (now : Int) : UploadRes × FState :=
  if s.quota.total_quota < s.quota.used_storage + size then
    (.quotaExceeded, s)
  else if s.quota.max_files ≤ s.quota.file_count then
    (.maxFilesReached, s)
  else
    (.ok,
      { quota := { s.quota with
          used_storage := s.quota.used_storage + size,
          file_count := s.quota.file_count + 1 },
        files := s.files ++ [{ fid := s.nextId, file_size := size,
                               created_at := now, is_temporary := false,
                               expires_at := none }],
        nextId := s.nextId + 1 })

/-- Embeds ToolFileHelper.check_quota together with save_file
(files/utils.py lines 37-124): the same two checks (raising instead of
returning 400), the expiry computation (`is_temporary and expires_in_hours`
is Python truthiness, so a 0-hour value falls back to the 24-hour default),
and the same quota increment. -/
def save_file (s : FState) (size : Nat) (now : Int) (isTemp : Bool)
    (expiresInHours : Option Nat) : UploadRes × FState :=
  if s.quota.total_quota < s.quota.used_storage + size then
    (.quotaExceeded, s)
  else if s.quota.max_files ≤ s.quota.file_count then
    (.maxFilesReached, s)
  else
    let expires_at : Option Int :=
      match isTemp, expiresInHours with
      | true, some h => if h ≠ 0 then some (now + 60 * h) else some (now + 60 * 24)
      | true, none => some (now + 60 * 24)
      | false, _ => none
    (.ok,
      { quota := { s.quota with
          used_storage := s.quota.used_storage + size,
          file_count := s.quota.file_count + 1 },
        files := s.files ++ [{ fid := s.nextId, file_size := size,
                               created_at := now, is_temporary := isTemp,
                               expires_at := expires_at }],
        nextId := s.nextId + 1 })

/-- Removes the first file with the given id, returning it and the rest. -/
def deleteById (fid : Nat) : List UserFile → Option (UserFile × List UserFile)
  | [] => none
  | f :: fs =>
    if f.fid = fid then some (f, fs)
    else
      match deleteById fid fs with
      | none => none
      | some (g, gs) => some (g, f :: gs)

/-- Embeds delete_file (files/api.py lines 262-277): 404 (no change) when the
file is absent; otherwise used_storage and file_count are decremented by the
recorded size (no floor here) and the row deleted. -/
def delete_file (s : FState) (fid : Nat) : FState :=
  match deleteById fid s.files with
  | none => s
  | some (f, rest) =>
    { s with
      quota := { s.quota with
        used_storage := s.quota.used_storage - f.file_size,
        file_count := s.quota.file_count - 1 },
      files := rest }

/-- The per-file quota reconciliation the sweeps apply: for every deleted
file, `used_storage = max(0, used_storage - size)` and
`file_count = max(0, file_count - 1)` (files/tasks.py lines 39-43, 78-82). -/
def floorSweepQuota (q : StorageQuota) (l : List UserFile) : StorageQuota :=
  l.foldl
    (fun q f =>
      { q with
        used_storage := max 0 (q.used_storage - f.file_size),
        file_count := max 0 (q.file_count - 1) })
    q

/-- The filter of cleanup_expired_files: temporary and expires_at <= now. -/
def isExpiredTemp (now : Int) (f : UserFile) : Bool :=
  f.is_temporary &&
    match f.expires_at with
    | some t => t ≤ now
    | none => false

/-- The filter of cleanup_old_temporary_files: temporary, no expires_at, and
created more than 24 hours before now. -/
def isOldTemp (now : Int) (f : UserFile) : Bool :=
  f.is_temporary && f.expires_at.isNone && f.created_at ≤ now - 60 * 24

/-- Net effect of one sweep loop (files/tasks.py): every file matching the
predicate is deleted and the owner's quota floor-adjusted per file. -/
def sweepBy (p : UserFile → Bool) (s : FState) : FState :=
  { s with
    quota := floorSweepQuota s.quota (s.files.filter p),
    files := s.files.filter (fun f => !(p f)) }

/-- Embeds cleanup_expired_files (files/tasks.py lines 12-51). -/
def cleanup_expired_files (s : FState) (now : Int) : FState :=
  sweepBy (isExpiredTemp now) s

/-- Embeds cleanup_old_temporary_files (files/tasks.py lines 54-90). -/
def cleanup_old_temporary_files (s : FState) (now : Int) : FState :=
  sweepBy (isOldTemp now) s

/-- Sum of file_size over a list of file rows. -/
def sumSizes : List UserFile → Int
  | [] => 0
  | f :: fs => (f.file_size : Int) + sumSizes fs

/-- Modelled from the spec: StorageQuota.recalculate_usage (files/models.py is
not in the provided source) authoritatively recomputes used_storage as the sum
of the user's current files and file_count as their number; driven by
recalculate_all_storage_quotas (files/tasks.py lines 93-109). -/
def recalculate_usage (s : FState) : FState :=
  { s with
    quota := { s.quota with
      used_storage := sumSizes s.files,
      file_count := s.files.length } }

/-- One operation of a single user's upload/delete/sweep history. -/
inductive FileOp where
  | upload (size : Nat) (now : Int)
  | toolSave (size : Nat) (now : Int) (isTemp : Bool) (expiresInHours : Option Nat)
  | delete (fid : Nat)
  | sweepExpired (now : Int)
  | sweepOldTemp (now : Int)
  | recalc
deriving DecidableEq, Repr

def applyOp (s : FState) : FileOp → FState
  | .upload size now => (upload_file s size now).2
  | .toolSave size now isTemp h => (save_file s size now isTemp h).2
  | .delete fid => delete_file s fid
  | .sweepExpired now => cleanup_expired_files s now
  | .sweepOldTemp now => cleanup_old_temporary_files s now
  | .recalc => recalculate_usage s

/-- Modelled from the spec: a fresh StorageQuota row (get_or_create on first
touch; files/models.py is not in the provided source) starts with
used_storage 0 and file_count 0, with plan defaults for the two limits; a
fresh user has no files. -/
def initState (totalQ maxF : Int) : FState :=
  { quota := { used_storage := 0, total_quota := totalQ,
               file_count := 0, max_files := maxF },
    files := [], nextId := 0 }

def runOps (s : FState) (ops : List FileOp) : FState :=
  ops.foldl applyOp s

/-- The quota bookkeeping invariant of claim C2. -/
def QuotaInv (s : FState) : Prop :=
  s.quota.used_storage = sumSizes s.files ∧
  s.quota.file_count = s.files.length

theorem sumSizes_nonneg : ∀ l : List UserFile, 0 ≤ sumSizes l
  | [] => le_refl 0
  | f :: fs => by
    have h := sumSizes_nonneg fs
    simp only [sumSizes]
    positivity

theorem sumSizes_append (l : List UserFile) (f : UserFile) :
    sumSizes (l ++ [f]) = sumSizes l + f.file_size := by
  induction l with
  | nil => simp [sumSizes]
  | cons g gs ih => simp [sumSizes, ih]; ring

theorem deleteById_spec (fid : Nat) :
    ∀ (l : List UserFile) (g : UserFile) (gs : List UserFile),
      deleteById fid l = some (g, gs) →
      sumSizes l = (g.file_size : Int) + sumSizes gs ∧ l.length = gs.length + 1
  | [], g, gs, h => by simp [deleteById] at h
  | f :: fs, g, gs, h => by
    simp only [deleteById] at h
    by_cases hf : f.fid = fid
    · rw [if_pos hf] at h
      obtain ⟨rfl, rfl⟩ := by simpa using h
      exact ⟨rfl, rfl⟩
    · rw [if_neg hf] at h
      cases hrec : deleteById fid fs with
      | none => rw [hrec] at h; simp at h
      | some pr =>
        obtain ⟨g0, gs0⟩ := pr
        rw [hrec] at h
        obtain ⟨rfl, rfl⟩ := by simpa using h
        obtain ⟨h1, h2⟩ := deleteById_spec fid fs g0 gs0 hrec
        constructor
        · simp [sumSizes, h1]; ring
        · simp [h2]

theorem sumSizes_filter_split (p : UserFile → Bool) (l : List UserFile) :
    sumSizes l = sumSizes (l.filter p) + sumSizes (l.filter (fun f => !(p f))) := by
  induction l with
  | nil => simp [sumSizes]
  | cons f fs ih =>
    by_cases hp : p f
    · simp [List.filter, hp, sumSizes, ih]; ring
    · simp only [Bool.not_eq_true] at hp
      simp [List.filter, hp, sumSizes, ih]; ring

theorem length_filter_split (p : UserFile → Bool) (l : List UserFile) :
    l.length = (l.filter p).length + (l.filter (fun f => !(p f))).length := by
  induction l with
  | nil => simp
  | cons f fs ih =>
    by_cases hp : p f
    · simp [List.filter, hp, ih]; omega
    · simp only [Bool.not_eq_true] at hp
      simp [List.filter, hp, ih]; omega

theorem floorSweepQuota_spec :
    ∀ (l : List UserFile) (q : StorageQuota) (r1 r2 : Int),
      q.used_storage = sumSizes l + r1 → 0 ≤ r1 →
      q.file_count = l.length + r2 → 0 ≤ r2 →
      floorSweepQuota q l =
        { used_storage := r1, total_quota := q.total_quota,
          file_count := r2, max_files := q.max_files }
  | [], q, r1, r2, h1, h1n, h2, h2n => by
    cases q
    simp only [sumSizes, List.length_nil] at h1 h2
    simp_all [floorSweepQuota]
  | f :: fs, q, r1, r2, h1, h1n, h2, h2n => by
    have hs := sumSizes_nonneg fs
    have step : floorSweepQuota q (f :: fs) =
        floorSweepQuota
          { q with used_storage := max 0 (q.used_storage - f.file_size),
                   file_count := max 0 (q.file_count - 1) } fs := rfl
    rw [step]
    have hu : max 0 (q.used_storage - (f.file_size : Int)) = sumSizes fs + r1 := by
      simp only [sumSizes] at h1
      omega
    have hc : max 0 (q.file_count - 1) = (fs.length : Int) + r2 := by
      simp only [List.length_cons] at h2
      push_cast at h2 ⊢
      omega
    exact floorSweepQuota_spec fs _ r1 r2 hu h1n hc h2n

theorem inv_sweepBy (p : UserFile → Bool) (s : FState) (h : QuotaInv s) :
    QuotaInv (sweepBy p s) := by
  obtain ⟨h1, h2⟩ := h
  have hsum := sumSizes_filter_split p s.files
  have hlen := length_filter_split p s.files
  have hq := floorSweepQuota_spec (s.files.filter p) s.quota
    (sumSizes (s.files.filter (fun f => !(p f))))
    ((s.files.filter (fun f => !(p f))).length)
    (by rw [h1, hsum]) (sumSizes_nonneg _)
    (by rw [h2]; push_cast [hlen]; ring) (by positivity)
  constructor
  · simp [sweepBy, hq]
  · simp [sweepBy, hq]

theorem inv_applyOp (s : FState) (op : FileOp) (h : QuotaInv s) :
    QuotaInv (applyOp s op) := by
  obtain ⟨h1, h2⟩ := h
  cases op with
  | upload size now =>
    simp only [applyOp, upload_file]
    split
    · exact ⟨h1, h2⟩
    · split
      · exact ⟨h1, h2⟩
      · constructor
        · simp [sumSizes_append, h1]
        · simp [h2]
  | toolSave size now isTemp hrs =>
    simp only [applyOp, save_file]
    split
    · exact ⟨h1, h2⟩
    · split
      · exact ⟨h1, h2⟩
      · constructor
        · simp [sumSizes_append, h1]
        · simp [h2]
  | delete fid =>
    simp only [applyOp, delete_file]
    cases hdel : deleteById fid s.files with
    | none => exact ⟨h1, h2⟩
    | some pr =>
      obtain ⟨g, gs⟩ := pr
      obtain ⟨hds, hdl⟩ := deleteById_spec fid s.files g gs hdel
      constructor
      · simp only []
        rw [h1, hds]; ring
      · simp only []
        rw [h2, hdl]; push_cast; ring
  | sweepExpired now => exact inv_sweepBy _ s ⟨h1, h2⟩
  | sweepOldTemp now => exact inv_sweepBy _ s ⟨h1, h2⟩
  | recalc => exact ⟨rfl, rfl⟩

theorem inv_runOps : ∀ (ops : List FileOp) (s : FState),
    QuotaInv s → QuotaInv (runOps s ops)
  | [], _, h => h
  | op :: ops, s, h => inv_runOps ops (applyOp s op) (inv_applyOp s op h)

/-- C2: for every sequence of uploads (API or tool helper), deletions and
background sweep runs by one user, used_storage equals the sum of file_size
over the user's current file rows, file_count equals their number, and
used_storage never goes negative. -/
theorem c2_quota_invariant (totalQ maxF : Int) (ops : List FileOp) :
    QuotaInv (runOps (initState totalQ maxF) ops) ∧
    0 ≤ (runOps (initState totalQ maxF) ops).quota.used_storage := by
  have h := inv_runOps ops (initState totalQ maxF) ⟨rfl, rfl⟩
  exact ⟨h, h.1 ▸ sumSizes_nonneg _⟩

/-- C1 (amended): an upload is rejected, with the state untouched, whenever
used_storage + size > total_quota; an upload with used_storage + size =
total_quota exactly succeeds, provided the file-count cap is not already
reached, after which used_storage = total_quota and file_count is
incremented by 1. -/
theorem c1_upload_quota_boundary (s : FState) (size : Nat) (now : Int) :
    (s.quota.total_quota < s.quota.used_storage + size →
      upload_file s size now = (.quotaExceeded, s)) ∧
    (s.quota.used_storage + size = s.quota.total_quota →
      s.quota.file_count < s.quota.max_files →
      (upload_file s size now).1 = .ok ∧
      (upload_file s size now).2.quota.used_storage = s.quota.total_quota ∧
      (upload_file s size now).2.quota.file_count = s.quota.file_count + 1) := by
  constructor
  · intro h
    simp [upload_file, h]
  · intro heq hcnt
    have h1 : ¬ s.quota.total_quota < s.quota.used_storage + size := by omega
    have h2 : ¬ s.quota.max_files ≤ s.quota.file_count := by omega
    simp [upload_file, h1, h2, heq]

theorem c1_upload_quota_boundary_witness :
    (upload_file
        { quota := { used_storage := 900, total_quota := 1000,
                     file_count := 3, max_files := 100 },
          files := [], nextId := 0 } 101 0
      = (.quotaExceeded,
        { quota := { used_storage := 900, total_quota := 1000,
                     file_count := 3, max_files := 100 },
          files := [], nextId := 0 })) ∧
    ((upload_file
        { quota := { used_storage := 900, total_quota := 1000,
                     file_count := 3, max_files := 100 },
          files := [], nextId := 0 } 100 0).1 = .ok ∧
      (upload_file
        { quota := { used_storage := 900, total_quota := 1000,
                     file_count := 3, max_files := 100 },
          files := [], nextId := 0 } 100 0).2.quota.used_storage = 1000 ∧
      (upload_file
        { quota := { used_storage := 900, total_quota := 1000,
                     file_count := 3, max_files := 100 },
          files := [], nextId := 0 } 100 0).2.quota.file_count = 3 + 1) :=
  ⟨(c1_upload_quota_boundary _ 101 0).1 (by decide),
   (c1_upload_quota_boundary _ 100 0).2 (by decide) (by decide)⟩

/-- The quota state of the C1 counterexample: the byte quota has exactly 100
bytes left but the file-count cap is already reached. -/
def c1CexState : FState :=
  { quota := { used_storage := 900, total_quota := 1000,
               file_count := 100, max_files := 100 },
    files := [], nextId := 0 }

/-- C1 counterexample: with used_storage = 900, total_quota = 1000 and
file_count = max_files = 100, an upload of exactly 100 bytes satisfies
used_storage + size = total_quota, yet it is rejected (max-files check), so
the claim's unconditional success statement is false. -/
theorem c1_counterexample :
    (upload_file c1CexState 100 0).1 ≠ UploadRes.ok ∧
    (upload_file c1CexState 100 0).2.quota.used_storage = 900 ∧
    (upload_file c1CexState 100 0).2.quota.file_count = 100 := by
  decide

end FilesM

namespace NotifM

inductive NStatus where
  | pending
  | sent
  | snoozed
  | cancelled
  | failed
deriving DecidableEq, Repr

/-- One ScheduledNotification row (notifications/models.py lines 33-94),
restricted to the fields the snooze/cancel/update/dispatch logic reads.
Times are wall-clock minutes. -/
structure SN where
  scheduled_time : Int
  status : NStatus
  snooze_duration_minutes : Int
  snooze_count : Int
  max_snooze_count : Int
  original_scheduled_time : Option Int
  sent_at : Option Int
deriving DecidableEq, Repr

/-- Python `x or default` on an optional integer: None and 0 are both falsy,
so either falls back to the default. -/
def pyOrInt : Option Int → Int → Int
  | none, d => d
  | some x, d => if x = 0 then d else x

/-- Embeds ScheduledNotification.snooze (notifications/models.py lines
96-109): refuse when snooze_count >= max_snooze_count; otherwise record
original_scheduled_time if not already set, compute the duration with
Python `or` truthiness, move scheduled_time to now + duration, increment
snooze_count and set status to snoozed. -/
def SN.snooze (n : SN) (now : Int) (duration_minutes : Option Int) : Bool × SN :=
  if n.max_snooze_count ≤ n.snooze_count then (false, n)
  else
    let orig :=
      match n.original_scheduled_time with
      | none => some n.scheduled_time
      | some t => some t
    let duration := pyOrInt duration_minutes n.snooze_duration_minutes
    (true,
      { n with
        original_scheduled_time := orig,
        scheduled_time := now + duration,
        snooze_count := n.snooze_count + 1,
        status := .snoozed })

/-- Embeds ScheduledNotification.mark_sent (notifications/models.py lines
111-115). -/
def SN.mark_sent (n : SN) (now : Int) : SN :=
  { n with status := .sent, sent_at := some now }

/-- Embeds ScheduledNotification.cancel (notifications/models.py lines
117-120): unconditionally sets cancelled. -/
def SN.cancel (n : SN) : SN :=
  { n with status := .cancelled }

/-- The PATCH payload (UpdateScheduledNotificationSchema,
notifications/schemas.py lines 58-68) restricted to the modelled fields;
note the schema has no status field at all. none means "not provided"
(exclude_unset). -/
structure UpdatePayload where
  scheduled_time : Option Int := none
  snooze_duration_minutes : Option Int := none
  max_snooze_count : Option Int := none
deriving DecidableEq, Repr

/-- Embeds update_scheduled_notification (notifications/api.py lines
367-388): rejected with no change unless status is pending or snoozed;
otherwise only the provided fields are set. -/
def update_scheduled_notification (n : SN) (p : UpdatePayload) : Bool × SN :=
  if n.status = .pending ∨ n.status = .snoozed then
    (true,
      { n with
        scheduled_time := p.scheduled_time.getD n.scheduled_time,
        snooze_duration_minutes :=
          p.snooze_duration_minutes.getD n.snooze_duration_minutes,
        max_snooze_count := p.max_snooze_count.getD n.max_snooze_count })
  else (false, n)

/-- Embeds the per-notification work of process_scheduled_notifications
(notifications/tasks.py lines 13-76): the job selects only notifications
with status pending or snoozed and scheduled_time <= now, marking them sent
on delivery success and failed on failure or exception; any other
notification is untouched. -/
def dispatchOne (n : SN) (now : Int) (delivered : Bool) : SN :=
  if (n.status = .pending ∨ n.status = .snoozed) ∧ n.scheduled_time ≤ now then
    if delivered then n.mark_sent now else { n with status := .failed }
  else n

/-- Every status-relevant operation the system can apply to one
ScheduledNotification: the snooze endpoint (notifications/api.py lines
391-407 delegate to SN.snooze), the cancel endpoint (lines 410-421 delegate
to SN.cancel), the update endpoint, and the dispatch job. -/
inductive NOp where
  | snoozeOp (now : Int) (dur : Option Int)
  | cancelOp
  | updateOp (p : UpdatePayload)
  | dispatchOp (now : Int) (delivered : Bool)
deriving DecidableEq, Repr

def applyNOp (n : SN) : NOp → SN
  | .snoozeOp now dur => (n.snooze now dur).2
  | .cancelOp => n.cancel
  | .updateOp p => (update_scheduled_notification n p).2
  | .dispatchOp now delivered => dispatchOne n now delivered

/-- The statuses the spec calls terminal. -/
def terminalStatus (st : NStatus) : Prop :=
  st = .sent ∨ st = .cancelled ∨ st = .failed

/-- C3 (amended): snooze refuses with no state change when snooze_count has
reached max_snooze_count; otherwise it succeeds, fixes
original_scheduled_time at the prior scheduled_time on the first snooze only,
sets scheduled_time to now plus the given nonzero duration (a given duration
of 0, like an absent one, falls back to snooze_duration_minutes), increments
snooze_count by exactly 1 and sets status to snoozed. -/
theorem c3_snooze_behaviour (n : SN) (now : Int) (dur : Option Int) :
    (n.max_snooze_count ≤ n.snooze_count → n.snooze now dur = (false, n)) ∧
    (n.snooze_count < n.max_snooze_count →
      (n.snooze now dur).1 = true ∧
      (n.snooze now dur).2.original_scheduled_time
        = some (n.original_scheduled_time.getD n.scheduled_time) ∧
      (n.snooze now dur).2.scheduled_time
        = now + (match dur with
                 | some d => if d = 0 then n.snooze_duration_minutes else d
                 | none => n.snooze_duration_minutes) ∧
      (n.snooze now dur).2.snooze_count = n.snooze_count + 1 ∧
      (n.snooze now dur).2.status = .snoozed ∧
      (n.snooze now dur).2.max_snooze_count = n.max_snooze_count ∧
      (n.snooze now dur).2.snooze_duration_minutes = n.snooze_duration_minutes) := by
  constructor
  · intro h
    simp [SN.snooze, h]
  · intro h
    have h1 : ¬ n.max_snooze_count ≤ n.snooze_count := by omega
    refine ⟨by simp [SN.snooze, h1], ?_, ?_, by simp [SN.snooze, h1],
      by simp [SN.snooze, h1], by simp [SN.snooze, h1], by simp [SN.snooze, h1]⟩
    · cases horig : n.original_scheduled_time with
      | none => simp [SN.snooze, h1, horig]
      | some t => simp [SN.snooze, h1, horig]
    · cases dur with
      | none => simp [SN.snooze, h1, pyOrInt]
      | some d => simp [SN.snooze, h1, pyOrInt]

theorem c3_snooze_behaviour_witness :
    (SN.snooze
        { scheduled_time := 100, status := .snoozed,
          snooze_duration_minutes := 30, snooze_count := 3,
          max_snooze_count := 3, original_scheduled_time := some 40,
          sent_at := none } 500 none
      = (false,
        { scheduled_time := 100, status := .snoozed,
          snooze_duration_minutes := 30, snooze_count := 3,
          max_snooze_count := 3, original_scheduled_time := some 40,
          sent_at := none })) ∧
    ((SN.snooze
        { scheduled_time := 100, status := .pending,
          snooze_duration_minutes := 30, snooze_count := 0,
          max_snooze_count := 3, original_scheduled_time := none,
          sent_at := none } 500 (some 10)).1 = true ∧
      (SN.snooze
        { scheduled_time := 100, status := .pending,
          snooze_duration_minutes := 30, snooze_count := 0,
          max_snooze_count := 3, original_scheduled_time := none,
          sent_at := none } 500 (some 10)).2.original_scheduled_time = some 100 ∧
      (SN.snooze
        { scheduled_time := 100, status := .pending,
          snooze_duration_minutes := 30, snooze_count := 0,
          max_snooze_count := 3, original_scheduled_time := none,
          sent_at := none } 500 (some 10)).2.scheduled_time = 500 + 10 ∧
      (SN.snooze
        { scheduled_time := 100, status := .pending,
          snooze_duration_minutes := 30, snooze_count := 0,
          max_snooze_count := 3, original_scheduled_time := none,
          sent_at := none } 500 (some 10)).2.snooze_count = 0 + 1 ∧
      (SN.snooze
        { scheduled_time := 100, status := .pending,
          snooze_duration_minutes := 30, snooze_count := 0,
          max_snooze_count := 3, original_scheduled_time := none,
          sent_at := none } 500 (some 10)).2.status = .snoozed ∧
      (SN.snooze
        { scheduled_time := 100, status := .pending,
          snooze_duration_minutes := 30, snooze_count := 0,
          max_snooze_count := 3, original_scheduled_time := none,
          sent_at := none } 500 (some 10)).2.max_snooze_count = 3 ∧
      (SN.snooze
        { scheduled_time := 100, status := .pending,
          snooze_duration_minutes := 30, snooze_count := 0,
          max_snooze_count := 3, original_scheduled_time := none,
          sent_at := none } 500 (some 10)).2.snooze_duration_minutes = 30) :=
  ⟨(c3_snooze_behaviour _ 500 none).1 (by decide),
   (c3_snooze_behaviour _ 500 (some 10)).2 (by decide)⟩

/-- The notification of the C3 counterexample: default 30-minute snooze
duration, never snoozed before. -/
def c3Cex : SN :=
  { scheduled_time := 100, status := .pending,
    snooze_duration_minutes := 30, snooze_count := 0,
    max_snooze_count := 3, original_scheduled_time := none,
    sent_at := none }

/-- C3 counterexample: snoozing with an explicit duration of 0 minutes does
not set scheduled_time to now + 0 as the claim states; Python `or`
truthiness makes the 0 fall back to snooze_duration_minutes, giving
now + 30. -/
theorem c3_counterexample :
    (c3Cex.snooze 1000 (some 0)).2.scheduled_time ≠ 1000 + 0 ∧
    (c3Cex.snooze 1000 (some 0)).2.scheduled_time = 1000 + 30 := by
  decide

/-- C4 (amended): a notification whose status is sent, cancelled or failed
is immutable under the update endpoint and untouched by the dispatch job;
but snooze still succeeds on it whenever snooze_count < max_snooze_count,
moving its status to snoozed, and cancel unconditionally sets cancelled. -/
theorem c4_terminal_statuses (n : SN) (h : terminalStatus n.status) :
    (∀ p : UpdatePayload, update_scheduled_notification n p = (false, n)) ∧
    (∀ (now : Int) (delivered : Bool), dispatchOne n now delivered = n) ∧
    (∀ (now : Int) (dur : Option Int), n.snooze_count < n.max_snooze_count →
      (n.snooze now dur).1 = true ∧ (n.snooze now dur).2.status = .snoozed) ∧
    (SN.cancel n).status = .cancelled := by
  have hne : ¬ (n.status = .pending ∨ n.status = .snoozed) := by
    rcases h with h | h | h <;> rw [h] <;> rintro (hc | hc) <;> exact absurd hc (by decide)
  refine ⟨?_, ?_, ?_, rfl⟩
  · intro p
    simp [update_scheduled_notification, hne]
  · intro now delivered
    simp only [dispatchOne]
    rw [if_neg (by exact fun hc => hne hc.1)]
  · intro now dur hcnt
    have h1 : ¬ n.max_snooze_count ≤ n.snooze_count := by omega
    exact ⟨by simp [SN.snooze, h1], by simp [SN.snooze, h1]⟩

theorem c4_terminal_statuses_witness :
    (update_scheduled_notification
        { scheduled_time := 100, status := .sent,
          snooze_duration_minutes := 30, snooze_count := 0,
          max_snooze_count := 3, original_scheduled_time := none,
          sent_at := some 90 } { scheduled_time := some 7 }
      = (false,
        { scheduled_time := 100, status := .sent,
          snooze_duration_minutes := 30, snooze_count := 0,
          max_snooze_count := 3, original_scheduled_time := none,
          sent_at := some 90 })) ∧
    (dispatchOne
        { scheduled_time := 100, status := .sent,
          snooze_duration_minutes := 30, snooze_count := 0,
          max_snooze_count := 3, original_scheduled_time := none,
          sent_at := some 90 } 500 true
      = { scheduled_time := 100, status := .sent,
          snooze_duration_minutes := 30, snooze_count := 0,
          max_snooze_count := 3, original_scheduled_time := none,
          sent_at := some 90 }) ∧
    ((SN.snooze
        { scheduled_time := 100, status := .sent,
          snooze_duration_minutes := 30, snooze_count := 0,
          max_snooze_count := 3, original_scheduled_time := none,
          sent_at := some 90 } 500 none).1 = true ∧
      (SN.snooze
        { scheduled_time := 100, status := .sent,
          snooze_duration_minutes := 30, snooze_count := 0,
          max_snooze_count := 3, original_scheduled_time := none,
          sent_at := some 90 } 500 none).2.status = .snoozed) ∧
    (SN.cancel
        { scheduled_time := 100, status := .sent,
          snooze_duration_minutes := 30, snooze_count := 0,
          max_snooze_count := 3, original_scheduled_time := none,
          sent_at := some 90 }).status = .cancelled :=
  ⟨(c4_terminal_statuses _ (Or.inl rfl)).1 _,
   (c4_terminal_statuses _ (Or.inl rfl)).2.1 500 true,
   (c4_terminal_statuses _ (Or.inl rfl)).2.2.1 500 none (by decide),
   (c4_terminal_statuses _ (Or.inl rfl)).2.2.2⟩

/-- The notification of the C4 counterexample: already sent, never
snoozed. -/
def c4Cex : SN :=
  { scheduled_time := 100, status := .sent,
    snooze_duration_minutes := 30, snooze_count := 0,
    max_snooze_count := 3, original_scheduled_time := none,
    sent_at := some 90 }

/-- C4 counterexample: sent is not terminal — the snooze operation (which
checks only the snooze count, not the status) moves a sent notification to
snoozed, and cancel moves it to cancelled. -/
theorem c4_counterexample :
    terminalStatus c4Cex.status ∧
    (applyNOp c4Cex (.snoozeOp 500 none)).status ≠ c4Cex.status ∧
    (applyNOp c4Cex (.snoozeOp 500 none)).status = .snoozed ∧
    (applyNOp c4Cex .cancelOp).status = .cancelled := by
  refine ⟨Or.inl rfl, ?_, ?_, ?_⟩ <;> decide

end NotifM

namespace ShareM

/-- One FileShare row (spec section 3), restricted to the fields the download
endpoint and the share sweep read. Users are identified by Nat ids. -/
structure FileShare where
  is_public : Bool
  shared_with : Option Nat
  max_downloads : Option Int
  download_count : Int
  expires_at : Option Int
  last_accessed : Option Int
deriving DecidableEq, Repr

/-- Modelled from the spec: the derived FileShare.is_expired property
(files/models.py is not in the provided source) — expires_at is set and in
the past. -/
def FileShare.is_expired (sh : FileShare) (now : Int) : Bool :=
  match sh.expires_at with
  | some t => t < now
  | none => false

/-- The state of the underlying blob when the endpoint reaches the serving
code: record has no blob, blob path absent on disk, opening/streaming fails
(the caught Exception branch), or fully present. -/
inductive Blob where
  | missingRecord
  | missingOnDisk
  | openFails
  | present
deriving DecidableEq, Repr

inductive DlRes where
  | gone
  | unauthorized
  | forbidden
  | notFound
  | internalError
  | okStream
deriving DecidableEq, Repr

/-- The 401 condition of download_shared_file: share not public and no
authenticated caller. -/
def authMissing (sh : FileShare) (auth : Option Nat) : Bool :=
  !sh.is_public && auth.isNone

/-- The 403 condition of download_shared_file: share not public, targeted at
a specific user, and the (authenticated) caller is somebody else. -/
def wrongTarget (sh : FileShare) (auth : Option Nat) : Bool :=
  !sh.is_public &&
    (match sh.shared_with, auth with
     | some u, some a => a ≠ u
     | _, _ => false)

/-- Embeds download_shared_file (files/api.py lines 319-385): 410 when
expired; for non-public shares 401 without authentication and 403 when a
targeted share is accessed by another user; then download_count is
incremented and last_accessed set BEFORE the blob is located, after which
the blob checks can still yield 404 or 500. Note: no max_downloads check
anywhere on this path. -/
def download_shared_file (sh : FileShare) (now : Int) (auth : Option Nat)
    (blob : Blob) : DlRes × FileShare :=
  if sh.is_expired now then (.gone, sh)
  else if authMissing sh auth then (.unauthorized, sh)
  else if wrongTarget sh auth then (.forbidden, sh)
  else
    let sh2 := { sh with download_count := sh.download_count + 1,
                         last_accessed := some now }
    match blob with
    | .missingRecord => (.notFound, sh2)
    | .missingOnDisk => (.notFound, sh2)
    | .openFails => (.internalError, sh2)
    | .present => (.okStream, sh2)

/-- The sweep's download-cap filter (files/tasks.py lines 128-132):
max_downloads is set and download_count >= max_downloads. -/
def isCapped (sh : FileShare) : Bool :=
  match sh.max_downloads with
  | some m => m ≤ sh.download_count
  | none => false

/-- The sweep's expiry filter (files/tasks.py line 123): expires_at <= now. -/
def expiresLe (sh : FileShare) (now : Int) : Bool :=
  match sh.expires_at with
  | some t => t ≤ now
  | none => false

/-- Embeds cleanup_expired_shares (files/tasks.py lines 112-138): deletes the
expired shares, then the capped ones among the remainder. -/
def cleanup_expired_shares (now : Int) (shares : List FileShare) :
    List FileShare :=
  (shares.filter (fun s => !(expiresLe s now))).filter (fun s => !(isCapped s))

/-- C5 (amended): the periodic sweep deletes every share that is expired or
has download_count >= max_downloads, but the download endpoint itself never
checks max_downloads — until a sweep runs, a capped share still grants
successful downloads (and keeps counting them up). -/
theorem c5_download_cap (now : Int) (shares : List FileShare)
    (sh : FileShare) (auth : Option Nat) :
    (sh ∈ cleanup_expired_shares now shares →
      isCapped sh = false ∧ expiresLe sh now = false) ∧
    (isCapped sh = true → sh.is_expired now = false → sh.is_public = true →
      (download_shared_file sh now auth .present).1 = .okStream ∧
      (download_shared_file sh now auth .present).2.download_count
        = sh.download_count + 1) := by
  constructor
  · intro hmem
    simp only [cleanup_expired_shares, List.mem_filter, Bool.not_eq_true',
      Bool.not_eq_true] at hmem
    exact ⟨hmem.2, hmem.1.2⟩
  · intro _ hexp hpub
    simp [download_shared_file, authMissing, wrongTarget, hexp, hpub]

theorem c5_download_cap_witness :
    ((⟨true, none, some 1, 1, none, none⟩ : FileShare) ∈
        cleanup_expired_shares 0
          [(⟨true, none, some 1, 1, none, none⟩ : FileShare)] →
      isCapped ⟨true, none, some 1, 1, none, none⟩ = false ∧
      expiresLe ⟨true, none, some 1, 1, none, none⟩ 0 = false) ∧
    ((download_shared_file ⟨true, none, some 1, 1, none, none⟩ 0 none
        .present).1 = .okStream ∧
      (download_shared_file ⟨true, none, some 1, 1, none, none⟩ 0 none
        .present).2.download_count = 1 + 1) :=
  ⟨(c5_download_cap 0 _ _ none).1,
   (c5_download_cap 0 [⟨true, none, some 1, 1, none, none⟩] _ none).2
     (by decide) (by decide) (by decide)⟩

/-- The share of the C5 counterexample: public, never expiring, capped at 1
download which has already happened. -/
def c5Cex : FileShare := ⟨true, none, some 1, 1, none, none⟩

/-- C5 counterexample: a share that has reached its download cap
(download_count = max_downloads = 1) still grants a successful download via
the endpoint, contradicting the claim that the token no longer does. -/
theorem c5_counterexample :
    isCapped c5Cex = true ∧
    (download_shared_file c5Cex 0 none .present).1 = DlRes.okStream ∧
    (download_shared_file c5Cex 0 none .present).2.download_count = 2 := by
  decide

/-- C9: every shared-token download that passes the expiry and permission
checks increments download_count by exactly 1 and stamps last_accessed,
regardless of whether the blob is then found — so requests ending in
NotFound or Internal still permanently count. -/
theorem c9_count_before_blob (sh : FileShare) (now : Int) (auth : Option Nat)
    (blob : Blob)
    (h : (download_shared_file sh now auth blob).1 ≠ .gone ∧
         (download_shared_file sh now auth blob).1 ≠ .unauthorized ∧
         (download_shared_file sh now auth blob).1 ≠ .forbidden) :
    (download_shared_file sh now auth blob).2.download_count
      = sh.download_count + 1 ∧
    (download_shared_file sh now auth blob).2.last_accessed = some now := by
  obtain ⟨h1, h2, h3⟩ := h
  by_cases he : sh.is_expired now
  · exact absurd (by simp [download_shared_file, he]) h1
  · by_cases hu : authMissing sh auth
    · exact absurd (by simp [download_shared_file, he, hu]) h2
    · by_cases hf : wrongTarget sh auth
      · exact absurd (by simp [download_shared_file, he, hu, hf]) h3
      · cases blob <;>
          simp [download_shared_file, he, hu, hf]

theorem c9_count_before_blob_witness :
    (download_shared_file ⟨true, none, none, 5, none, none⟩ 7 none
        .missingRecord).1 = DlRes.notFound ∧
    (download_shared_file ⟨true, none, none, 5, none, none⟩ 7 none
        .missingRecord).2.download_count = 5 + 1 ∧
    (download_shared_file ⟨true, none, none, 5, none, none⟩ 7 none
        .missingRecord).2.last_accessed = some 7 :=
  ⟨by decide,
   (c9_count_before_blob ⟨true, none, none, 5, none, none⟩ 7 none
      .missingRecord ⟨by decide, by decide, by decide⟩).1,
   (c9_count_before_blob ⟨true, none, none, 5, none, none⟩ 7 none
      .missingRecord ⟨by decide, by decide, by decide⟩).2⟩

end ShareM

namespace PushM

/-- One PushSubscription row (notifications/models.py lines 6-30); the
endpoint column is declared unique in the database. Users are Nat ids. -/
structure PushSub where
  endpoint : String
  user : Nat
  p256dh_key : String
  auth_key : String
  is_active : Bool
deriving DecidableEq, Repr

inductive SubRes where
  | missingKeys
  | ok
deriving DecidableEq, Repr

/-- Embeds subscribe_to_push (notifications/api.py lines 38-95): 400 when
either key is absent (an absent or empty key is modelled as ""); otherwise
every OTHER active subscription of the caller is deactivated, then
update_or_create keyed by endpoint either rewrites the existing row for
this endpoint (reassigning its user to the caller and reactivating it) or
appends a fresh row. -/
def subscribe (st : List PushSub) (caller : Nat) (endpoint p256dh auth : String) :
    SubRes × List PushSub :=
  if p256dh = "" ∨ auth = "" then (.missingKeys, st)
  else
    let st1 := st.map (fun s =>
      if s.user = caller ∧ s.is_active = true ∧ s.endpoint ≠ endpoint then
        { s with is_active := false }
      else s)
    if st1.any (fun s => s.endpoint = endpoint) then
      (.ok, st1.map (fun s =>
        if s.endpoint = endpoint then
          { s with user := caller, p256dh_key := p256dh,
                   auth_key := auth, is_active := true }
        else s))
    else
      (.ok, st1 ++ [{ endpoint := endpoint, user := caller,
                      p256dh_key := p256dh, auth_key := auth,
                      is_active := true }])

/-- Embeds unsubscribe_from_push (notifications/api.py lines 98-110): the
caller's subscription with this endpoint, if any, is marked inactive. -/
def unsubscribe (st : List PushSub) (caller : Nat) (endpoint : String) :
    List PushSub :=
  st.map (fun s =>
    if s.user = caller ∧ s.endpoint = endpoint then { s with is_active := false }
    else s)

/-- Embeds the 404/410 deactivation performed by the delivery paths
(notifications/api.py lines 186-191 and 293-300): the subscription at this
endpoint is marked inactive. -/
def deactivateEndpoint (st : List PushSub) (endpoint : String) : List PushSub :=
  st.map (fun s =>
    if s.endpoint = endpoint then { s with is_active := false } else s)

/-- Every operation that writes PushSubscription rows. -/
inductive PushOp where
  | subOp (caller : Nat) (endpoint p256dh auth : String)
  | unsubOp (caller : Nat) (endpoint : String)
  | goneOp (endpoint : String)

def applyPushOp (st : List PushSub) : PushOp → List PushSub
  | .subOp caller e k a => (subscribe st caller e k a).2
  | .unsubOp caller e => unsubscribe st caller e
  | .goneOp e => deactivateEndpoint st e

/-- Number of stored rows with the given endpoint. -/
def countEndpoint (st : List PushSub) (e : String) : Nat :=
  (st.filter (fun s => s.endpoint = e)).length

/-- The database uniqueness constraint on the endpoint column. -/
def UniqueEndpoints (st : List PushSub) : Prop :=
  ∀ e, countEndpoint st e ≤ 1

theorem countEndpoint_map_preserve (st : List PushSub) (e : String)
    (f : PushSub → PushSub) (hf : ∀ s, (f s).endpoint = s.endpoint) :
    countEndpoint (st.map f) e = countEndpoint st e := by
  induction st with
  | nil => rfl
  | cons s ss ih =>
    simp only [countEndpoint, List.map_cons, List.filter] at *
    rw [hf s]
    by_cases hse : s.endpoint = e
    · simp [hse, ih]
    · simp [hse, ih]

theorem countEndpoint_append (st : List PushSub) (x : PushSub) (e : String) :
    countEndpoint (st ++ [x]) e
      = countEndpoint st e + (if x.endpoint = e then 1 else 0) := by
  simp only [countEndpoint, List.filter_append, List.length_append]
  by_cases hx : x.endpoint = e
  · simp [List.filter, hx]
  · simp [List.filter, hx]

theorem subscribe_deactivation_preserves_endpoint
    (caller : Nat) (endpoint : String) (s : PushSub) :
    (if s.user = caller ∧ s.is_active = true ∧ s.endpoint ≠ endpoint then
        { s with is_active := false }
      else s).endpoint = s.endpoint := by
  split <;> rfl

theorem subscribe_rewrite_preserves_endpoint
    (caller : Nat) (endpoint p256dh auth : String) (s : PushSub) :
    (if s.endpoint = endpoint then
        { s with user := caller, p256dh_key := p256dh,
                 auth_key := auth, is_active := true }
      else s).endpoint = s.endpoint := by
  by_cases h : s.endpoint = endpoint
  · simp [h]
  · simp [h]

theorem countEndpoint_pos_of_any (st : List PushSub) (e : String)
    (h : st.any (fun s => s.endpoint = e) = true) :
    1 ≤ countEndpoint st e := by
  obtain ⟨s, hs, hse⟩ := List.any_eq_true.mp h
  have hm : s ∈ st.filter (fun s => s.endpoint = e) :=
    List.mem_filter.mpr ⟨hs, hse⟩
  exact List.length_pos.mpr (List.ne_nil_of_mem hm)

theorem countEndpoint_zero_of_not_any (st : List PushSub) (e : String)
    (h : st.any (fun s => s.endpoint = e) = false) :
    countEndpoint st e = 0 := by
  have hall := List.any_eq_false.mp h
  have : st.filter (fun s => s.endpoint = e) = [] :=
    List.filter_eq_nil_iff.mpr (fun s hs => by
      simpa using hall s hs)
  simp [countEndpoint, this]

/-- C10: after every successful subscribe the caller owns the unique row for
the given endpoint and it is active — even when the endpoint previously
belonged to a different user, whose row is silently reassigned — and every
subscription-writing operation preserves at-most-one-row-per-endpoint. -/
theorem c10_subscribe_endpoint_owner (st : List PushSub) (caller : Nat)
    (endpoint p256dh auth : String) (hu : UniqueEndpoints st)
    (hk : p256dh ≠ "") (ha : auth ≠ "") :
    (subscribe st caller endpoint p256dh auth).1 = .ok ∧
    countEndpoint (subscribe st caller endpoint p256dh auth).2 endpoint = 1 ∧
    (∀ s ∈ (subscribe st caller endpoint p256dh auth).2,
      s.endpoint = endpoint → s.user = caller ∧ s.is_active = true) ∧
    (∀ op, UniqueEndpoints (applyPushOp st op)) := by
  have hkeys : ¬ (p256dh = "" ∨ auth = "") := by
    rintro (h | h)
    · exact hk h
    · exact ha h
  have hd : ∀ s : PushSub,
      (if s.user = caller ∧ s.is_active = true ∧ s.endpoint ≠ endpoint then
          { s with is_active := false }
        else s).endpoint = s.endpoint :=
    subscribe_deactivation_preserves_endpoint caller endpoint
  have hst1 : ∀ e, countEndpoint
      (st.map (fun s =>
        if s.user = caller ∧ s.is_active = true ∧ s.endpoint ≠ endpoint then
          { s with is_active := false }
        else s)) e = countEndpoint st e :=
    fun e => countEndpoint_map_preserve st e _ hd
  refine ⟨?_, ?_, ?_, ?_⟩
  · simp only [subscribe]
    rw [if_neg hkeys]
    split <;> rfl
  · simp only [subscribe]
    rw [if_neg hkeys]
    split <;> rename_i hany
    · dsimp only
      rw [countEndpoint_map_preserve _ _ _
        (subscribe_rewrite_preserves_endpoint caller endpoint p256dh auth), hst1]
      have h1 := countEndpoint_pos_of_any _ endpoint hany
      rw [hst1] at h1
      have h2 := hu endpoint
      omega
    · dsimp only
      rw [countEndpoint_append, if_pos rfl]
      rw [countEndpoint_zero_of_not_any _ endpoint (Bool.eq_false_iff.mpr hany)]
  · simp only [subscribe]
    rw [if_neg hkeys]
    split <;> rename_i hany
    · dsimp only
      intro s hs hse
      obtain ⟨t, _, rfl⟩ := List.mem_map.mp hs
      by_cases hte : t.endpoint = endpoint
      · simp [hte]
      · rw [if_neg hte] at hse ⊢
        exact absurd hse hte
    · dsimp only
      intro s hs hse
      rcases List.mem_append.mp hs with hmem | hmem
      · have hall := List.any_eq_false.mp (Bool.eq_false_iff.mpr hany)
        exact absurd (by simpa using hse) (by simpa using hall s hmem)
      · obtain rfl : s = (⟨endpoint, caller, p256dh, auth, true⟩ : PushSub) := by
          simpa using hmem
        exact ⟨rfl, rfl⟩
  · intro op
    cases op with
    | subOp c e k a =>
      intro e0
      simp only [applyPushOp, subscribe]
      split <;> rename_i hkeys0
      · exact hu e0
      · have hd0 : ∀ s : PushSub,
            (if s.user = c ∧ s.is_active = true ∧ s.endpoint ≠ e then
                { s with is_active := false }
              else s).endpoint = s.endpoint :=
          subscribe_deactivation_preserves_endpoint c e
        have hst0 : ∀ e1, countEndpoint
            (st.map (fun s =>
              if s.user = c ∧ s.is_active = true ∧ s.endpoint ≠ e then
                { s with is_active := false }
              else s)) e1 = countEndpoint st e1 :=
          fun e1 => countEndpoint_map_preserve st e1 _ hd0
        split <;> rename_i hany
        · dsimp only
          rw [countEndpoint_map_preserve _ _ _
            (subscribe_rewrite_preserves_endpoint c e k a), hst0]
          exact hu e0
        · dsimp only
          rw [countEndpoint_append]
          by_cases he0 : e = e0
          · subst he0
            rw [if_pos rfl,
              countEndpoint_zero_of_not_any _ e (Bool.eq_false_iff.mpr hany)]
          · rw [if_neg (by simpa using he0), hst0]
            have := hu e0
            omega
    | unsubOp c e =>
      intro e0
      simp only [applyPushOp, unsubscribe]
      rw [countEndpoint_map_preserve st e0 _ (fun s => by split <;> rfl)]
      exact hu e0
    | goneOp e =>
      intro e0
      simp only [applyPushOp, deactivateEndpoint]
      rw [countEndpoint_map_preserve st e0 _ (fun s => by split <;> rfl)]
      exact hu e0

/-- The starting state of the C10 witness: the endpoint "ep1" is already
registered, actively, to a different user (id 2) than the caller (id 1). -/
def c10WitRow : PushSub := ⟨"ep1", 2, "kA", "aA", true⟩

theorem c10_subscribe_endpoint_owner_witness :
    ((subscribe [c10WitRow] 1 "ep1" "kB" "aB").1 = .ok) ∧
    countEndpoint (subscribe [c10WitRow] 1 "ep1" "kB" "aB").2 "ep1" = 1 ∧
    (∀ s ∈ (subscribe [c10WitRow] 1 "ep1" "kB" "aB").2,
      s.endpoint = "ep1" → s.user = 1 ∧ s.is_active = true) ∧
    (∀ op, UniqueEndpoints (applyPushOp [c10WitRow] op)) :=
  c10_subscribe_endpoint_owner [c10WitRow] 1 "ep1" "kB" "aB"
    (fun e => le_trans (List.length_filter_le _ _) (by simp))
    (by decide) (by decide)

end PushM

namespace RegM

end RegM

namespace CalcM

/-- The binary arithmetic operators Python expression syntax offers the
calculator. -/
inductive PBinOp where
  | add
  | sub
  | mul
  | div
  | floordiv
  | mod
  | pow
deriving DecidableEq, Repr

/-- The comparison operators (modelled unchained; a chained comparison like
`a < b < c` is a further lazily-evaluating form outside this model). -/
inductive PCmpOp where
  | ceq
  | cne
  | clt
  | cle
  | cgt
  | cge
deriving DecidableEq, Repr

mutual

/-- Abstract syntax of the expressions fed to eval in the calculator tool
(calculator.py line 22): numeric and boolean literals, bare names, unary
minus and not, binary arithmetic, comparisons, the short-circuiting and/or,
conditional expressions (`a if c else b`), and calls of a named function.
Parsing is Python's; a string that fails to parse raises SyntaxError inside
the same try and so also lands in the "Error: ..." branch. Numbers are
modelled as rationals. Lambdas, collection displays and comparison chains
are further eval-accepted forms left outside the model; like and/or and
conditionals they defer or skip evaluation of subterms, which is exactly
why the unknown-name clause below is restricted to lazy-free
expressions. -/
inductive PExpr where
  | num (q : ℚ)
  | boolLit (b : Bool)
  | pname (s : String)
  | neg (e : PExpr)
  | notE (e : PExpr)
  | binop (op : PBinOp) (a b : PExpr)
  | cmp (op : PCmpOp) (a b : PExpr)
  | andE (a b : PExpr)
  | orE (a b : PExpr)
  | condE (c a b : PExpr)
  | call (f : String) (args : PArgs)

/-- Argument lists of a call. -/
inductive PArgs where
  | anil
  | acons (e : PExpr) (es : PArgs)

end

/-- A runtime value: a number, a bool (True/False are keyword constants,
available even with empty builtins), or one of the whitelisted builtin
function objects (a bare `abs` evaluates to the function itself). -/
inductive PVal where
  | num (q : ℚ)
  | bool (b : Bool)
  | func (f : String)
deriving DecidableEq, Repr

/-- The allowed_names dict of the calculator (calculator.py lines 18-21):
eval runs with empty __builtins__, so these are the only resolvable
names. -/
def whitelist : List String := ["abs", "round", "min", "max", "sum", "pow"]

/-- Name resolution under `{"__builtins__": {}}` plus allowed_names: a name
off the whitelist raises NameError. -/
def lookupName (s : String) : Except String PVal :=
  if s ∈ whitelist then .ok (.func s)
  else .error ("name '" ++ s ++ "' is not defined")

/-- Python truthiness of the calculator's values: a number is truthy iff
nonzero, bools are themselves, function objects are truthy. -/
def truthy : PVal → Bool
  | .num q => q != 0
  | .bool b => b
  | .func _ => true

/-- Python's numeric view of a value: bool is an int subclass (True is 1),
function objects are not numbers. -/
def toNumQ : PVal → Option ℚ
  | .num q => some q
  | .bool b => some (if b then 1 else 0)
  | .func _ => none

/-- Python round with one argument: round-half-to-even. -/
def pyRound (q : ℚ) : ℚ :=
  let f : ℤ := ⌊q⌋
  let r : ℚ := q - (f : ℚ)
  if r < 1/2 then (f : ℚ)
  else if 1/2 < r then ((f + 1 : ℤ) : ℚ)
  else if f % 2 = 0 then (f : ℚ) else ((f + 1 : ℤ) : ℚ)

/-- Python ** and pow on numbers. A fractional exponent produces an
irrational float in Python, which the rational value model cannot carry;
it is mapped to an error here, and no claim exercises that case. -/
def pyPow (a b : ℚ) : Except String PVal :=
  if b.den = 1 then
    if a = 0 ∧ b.num < 0 then
      .error "0.0 cannot be raised to a negative power"
    else .ok (.num (a ^ b.num))
  else .error "non-integer exponent outside the numeric model"

/-- Python's binary arithmetic on the calculator's values: numbers (bools
included, as 0/1) combine arithmetically with ZeroDivisionError on zero
divisors; anything involving a function object raises TypeError. -/
def applyBin (op : PBinOp) (va vb : PVal) : Except String PVal :=
  match toNumQ va, toNumQ vb with
  | some a, some b =>
    (match op with
     | .add => .ok (.num (a + b))
     | .sub => .ok (.num (a - b))
     | .mul => .ok (.num (a * b))
     | .div =>
       if b = 0 then .error "division by zero" else .ok (.num (a / b))
     | .floordiv =>
       if b = 0 then .error "integer division or modulo by zero"
       else .ok (.num ((⌊a / b⌋ : ℤ) : ℚ))
     | .mod =>
       if b = 0 then .error "integer division or modulo by zero"
       else .ok (.num (a - b * ((⌊a / b⌋ : ℤ) : ℚ)))
     | .pow => pyPow a b)
  | _, _ => .error "unsupported operand type"

/-- Python comparisons: numbers (bools as 0/1) compare arithmetically;
== and != on two function objects compare identity (here: the name, since
each builtin is a single object); == across a number and a function is
False; an order comparison involving a function raises TypeError. -/
def applyCmp (op : PCmpOp) (va vb : PVal) : Except String PVal :=
  match toNumQ va, toNumQ vb with
  | some a, some b =>
    (match op with
     | .ceq => .ok (.bool (a == b))
     | .cne => .ok (.bool (a != b))
     | .clt => .ok (.bool (decide (a < b)))
     | .cle => .ok (.bool (decide (a ≤ b)))
     | .cgt => .ok (.bool (decide (b < a)))
     | .cge => .ok (.bool (decide (b ≤ a))))
  | _, _ =>
    (match op, va, vb with
     | .ceq, .func f, .func g => .ok (.bool (f == g))
     | .cne, .func f, .func g => .ok (.bool (f != g))
     | .ceq, _, _ => .ok (.bool false)
     | .cne, _, _ => .ok (.bool true)
     | _, _, _ => .error "order comparison not supported between instances")

/-- Checks that every argument is a number (bools count, as 0/1). -/
def allNums : List PVal → Option (List ℚ)
  | [] => some []
  | v :: vs =>
    match toNumQ v with
    | some q => (allNums vs).map (q :: ·)
    | none => none

/-- Semantics of the six whitelisted builtins on the argument shapes this
expression language can produce: abs/round take one number, pow two;
min/max need at least two numbers (a single number is not iterable); sum
always raises TypeError because its first argument must be an iterable and
this expression language has no iterable values; every other shape is a
TypeError. -/
def applyFn (f : String) (vs : List PVal) : Except String PVal :=
  match f, vs with
  | "abs", [v] =>
    (match toNumQ v with
     | some q => .ok (.num |q|)
     | none => .error "bad operand type for abs")
  | "round", [v] =>
    (match toNumQ v with
     | some q => .ok (.num (pyRound q))
     | none => .error "bad operand type for round")
  | "pow", [va, vb] =>
    (match toNumQ va, toNumQ vb with
     | some a, some b => pyPow a b
     | _, _ => .error "unsupported operand type")
  | "min", vs =>
    (match allNums vs with
     | some (q :: q2 :: qs) => .ok (.num ((q2 :: qs).foldl min q))
     | _ => .error "object is not iterable")
  | "max", vs =>
    (match allNums vs with
     | some (q :: q2 :: qs) => .ok (.num ((q2 :: qs).foldl max q))
     | _ => .error "object is not iterable")
  | "sum", _ => .error "object is not iterable"
  | _, _ => .error "invalid arguments"

mutual

/-- Evaluation of an expression exactly as eval runs it: Python evaluates a
call's function position before its arguments, arguments left to right,
and binary operands left to right; `and` returns its left value when falsy
without touching the right operand, `or` returns its left value when
truthy, a conditional evaluates its condition first and then only the
selected arm; any raised error propagates outward to the calculator's
except clause. -/
def evalE : PExpr → Except String PVal
  | .num q => .ok (.num q)
  | .boolLit b => .ok (.bool b)
  | .pname s => lookupName s
  | .neg e =>
    match evalE e with
    | .error m => .error m
    | .ok v =>
      match toNumQ v with
      | some q => .ok (.num (-q))
      | none => .error "bad operand type for unary -"
  | .notE e =>
    match evalE e with
    | .error m => .error m
    | .ok v => .ok (.bool (!truthy v))
  | .binop op a b =>
    match evalE a with
    | .error m => .error m
    | .ok va =>
      match evalE b with
      | .error m => .error m
      | .ok vb => applyBin op va vb
  | .cmp op a b =>
    match evalE a with
    | .error m => .error m
    | .ok va =>
      match evalE b with
      | .error m => .error m
      | .ok vb => applyCmp op va vb
  | .andE a b =>
    match evalE a with
    | .error m => .error m
    | .ok va => if truthy va then evalE b else .ok va
  | .orE a b =>
    match evalE a with
    | .error m => .error m
    | .ok va => if truthy va then .ok va else evalE b
  | .condE c a b =>
    match evalE c with
    | .error m => .error m
    | .ok vc => if truthy vc then evalE a else evalE b
  | .call f args =>
    match lookupName f with
    | .error m => .error m
    | .ok _ =>
      match evalArgs args with
      | .error m => .error m
      | .ok vs => applyFn f vs

/-- Evaluation of an argument list, left to right. -/
def evalArgs : PArgs → Except String (List PVal)
  | .anil => .ok []
  | .acons e es =>
    match evalE e with
    | .error m => .error m
    | .ok v =>
      match evalArgs es with
      | .error m => .error m
      | .ok vs => .ok (v :: vs)

end

/-- str() on a result value. Python prints floats in decimal notation; the
rational model renders a non-integral value as numerator/denominator text,
which no claim inspects. -/
def pyStr (v : PVal) : String :=
  match v with
  | .num q =>
    if q.den = 1 then toString q.num
    else toString q.num ++ "/" ++ toString q.den
  | .bool b => if b then "True" else "False"
  | .func f => "<built-in function " ++ f ++ ">"

/-- Embeds calculator (calculator.py lines 3-25): str(result) on success,
"Error: {message}" when evaluation raises. -/
def calculator (e : PExpr) : String :=
  match evalE e with
  | .ok v => pyStr v
  | .error m => "Error: " ++ m

mutual

/-- Whether the expression mentions any identifier outside the whitelist,
as a bare name or in call position, anywhere in its syntax. -/
def hasUnknownE : PExpr → Bool
  | .num _ => false
  | .boolLit _ => false
  | .pname s => decide (s ∉ whitelist)
  | .neg e => hasUnknownE e
  | .notE e => hasUnknownE e
  | .binop _ a b => hasUnknownE a || hasUnknownE b
  | .cmp _ a b => hasUnknownE a || hasUnknownE b
  | .andE a b => hasUnknownE a || hasUnknownE b
  | .orE a b => hasUnknownE a || hasUnknownE b
  | .condE c a b => hasUnknownE c || hasUnknownE a || hasUnknownE b
  | .call f args => decide (f ∉ whitelist) || hasUnknownA args

/-- Same, over an argument list. -/
def hasUnknownA : PArgs → Bool
  | .anil => false
  | .acons e es => hasUnknownE e || hasUnknownA es

end

mutual

/-- Whether the expression is free of the lazily-evaluating forms (and, or,
conditional expressions): on such expressions every subterm is evaluated
unless an earlier error occurs, so an unknown identifier is always
reached. -/
def lazyFree : PExpr → Bool
  | .num _ => true
  | .boolLit _ => true
  | .pname _ => true
  | .neg e => lazyFree e
  | .notE e => lazyFree e
  | .binop _ a b => lazyFree a && lazyFree b
  | .cmp _ a b => lazyFree a && lazyFree b
  | .andE _ _ => false
  | .orE _ _ => false
  | .condE _ _ _ => false
  | .call _ args => lazyFreeA args

/-- Same, over an argument list. -/
def lazyFreeA : PArgs → Bool
  | .anil => true
  | .acons e es => lazyFree e && lazyFreeA es

end

mutual

theorem evalE_error_of_unknown :
    ∀ e : PExpr, hasUnknownE e = true → lazyFree e = true →
      ∃ m, evalE e = .error m
  | .num _, h, _ => by simp [hasUnknownE] at h
  | .boolLit _, h, _ => by simp [hasUnknownE] at h
  | .pname s, h, _ => by
    have hs : s ∉ whitelist := by
      simpa [hasUnknownE] using h
    exact ⟨"name '" ++ s ++ "' is not defined", by simp [evalE, lookupName, hs]⟩
  | .neg e, h, hl => by
    obtain ⟨m, hm⟩ := evalE_error_of_unknown e
      (by simpa [hasUnknownE] using h) (by simpa [lazyFree] using hl)
    exact ⟨m, by simp [evalE, hm]⟩
  | .notE e, h, hl => by
    obtain ⟨m, hm⟩ := evalE_error_of_unknown e
      (by simpa [hasUnknownE] using h) (by simpa [lazyFree] using hl)
    exact ⟨m, by simp [evalE, hm]⟩
  | .binop op a b, h, hl => by
    have hla : lazyFree a = true := by
      have := (Bool.and_eq_true _ _).mp (by simpa [lazyFree] using hl)
      exact this.1
    have hlb : lazyFree b = true := by
      have := (Bool.and_eq_true _ _).mp (by simpa [lazyFree] using hl)
      exact this.2
    have h2 : hasUnknownE a = true ∨ hasUnknownE b = true := by
      simpa [hasUnknownE, Bool.or_eq_true] using h
    rcases h2 with ha | hb
    · obtain ⟨m, hm⟩ := evalE_error_of_unknown a ha hla
      exact ⟨m, by simp [evalE, hm]⟩
    · cases hva : evalE a with
      | error m => exact ⟨m, by simp [evalE, hva]⟩
      | ok va =>
        obtain ⟨m, hm⟩ := evalE_error_of_unknown b hb hlb
        exact ⟨m, by simp [evalE, hva, hm]⟩
  | .cmp op a b, h, hl => by
    have hla : lazyFree a = true := by
      have := (Bool.and_eq_true _ _).mp (by simpa [lazyFree] using hl)
      exact this.1
    have hlb : lazyFree b = true := by
      have := (Bool.and_eq_true _ _).mp (by simpa [lazyFree] using hl)
      exact this.2
    have h2 : hasUnknownE a = true ∨ hasUnknownE b = true := by
      simpa [hasUnknownE, Bool.or_eq_true] using h
    rcases h2 with ha | hb
    · obtain ⟨m, hm⟩ := evalE_error_of_unknown a ha hla
      exact ⟨m, by simp [evalE, hm]⟩
    · cases hva : evalE a with
      | error m => exact ⟨m, by simp [evalE, hva]⟩
      | ok va =>
        obtain ⟨m, hm⟩ := evalE_error_of_unknown b hb hlb
        exact ⟨m, by simp [evalE, hva, hm]⟩
  | .andE a b, _, hl => by simp [lazyFree] at hl
  | .orE a b, _, hl => by simp [lazyFree] at hl
  | .condE c a b, _, hl => by simp [lazyFree] at hl
  | .call f args, h, hl => by
    have h2 : f ∉ whitelist ∨ hasUnknownA args = true := by
      simpa [hasUnknownE] using h
    rcases h2 with hf | ha
    · exact ⟨"name '" ++ f ++ "' is not defined",
        by simp [evalE, lookupName, hf]⟩
    · cases hlf : lookupName f with
      | error m => exact ⟨m, by simp [evalE, hlf]⟩
      | ok v =>
        obtain ⟨m, hm⟩ := evalArgs_error_of_unknown args ha
          (by simpa [lazyFree] using hl)
        exact ⟨m, by simp [evalE, hlf, hm]⟩

theorem evalArgs_error_of_unknown :
    ∀ es : PArgs, hasUnknownA es = true → lazyFreeA es = true →
      ∃ m, evalArgs es = .error m
  | .anil, h, _ => by simp [hasUnknownA] at h
  | .acons e es, h, hl => by
    have hle : lazyFree e = true := by
      have := (Bool.and_eq_true _ _).mp (by simpa [lazyFreeA] using hl)
      exact this.1
    have hles : lazyFreeA es = true := by
      have := (Bool.and_eq_true _ _).mp (by simpa [lazyFreeA] using hl)
      exact this.2
    have h2 : hasUnknownE e = true ∨ hasUnknownA es = true := by
      simpa [hasUnknownA, Bool.or_eq_true] using h
    rcases h2 with he | hes
    · obtain ⟨m, hm⟩ := evalE_error_of_unknown e he hle
      exact ⟨m, by simp [evalArgs, hm]⟩
    · cases hve : evalE e with
      | error m => exact ⟨m, by simp [evalArgs, hve]⟩
      | ok v =>
        obtain ⟨m, hm⟩ := evalArgs_error_of_unknown es hes hles
        exact ⟨m, by simp [evalArgs, hve, hm]⟩

end

/-- C8 (amended): the calculator never raises — for every expression it
returns either the stringification of the value obtained by evaluating with
access to only abs, round, min, max, sum, pow and no builtins, or a string
of the form "Error: {message}". An expression using an identifier outside
that whitelist yields an "Error: ..." string provided the identifier does
not sit under a lazily-evaluating form: the short-circuiting and/or, or a
conditional expression, can return a value without ever resolving it. -/
theorem c8_calculator_total (e : PExpr) :
    ((∃ v, evalE e = .ok v ∧ calculator e = pyStr v) ∨
     (∃ m, evalE e = .error m ∧ calculator e = "Error: " ++ m)) ∧
    (hasUnknownE e = true → lazyFree e = true →
      ∃ m, calculator e = "Error: " ++ m) := by
  constructor
  · cases hv : evalE e with
    | ok v => exact Or.inl ⟨v, rfl, by simp [calculator, hv]⟩
    | error m => exact Or.inr ⟨m, rfl, by simp [calculator, hv]⟩
  · intro h hl
    obtain ⟨m, hm⟩ := evalE_error_of_unknown e h hl
    exact ⟨m, by simp [calculator, hm]⟩

/-- The expression of the C8 witness: `__import__("os")` written as a call
of a non-whitelisted identifier (arguments modelled as a name, which is
itself off the whitelist); no lazy form occurs in it. -/
def c8Wit : PExpr := .call "__import__" (.acons (.pname "os") .anil)

theorem c8_calculator_total_witness :
    hasUnknownE c8Wit = true ∧ lazyFree c8Wit = true ∧
    (∃ m, calculator c8Wit = "Error: " ++ m) :=
  ⟨by decide, by decide, (c8_calculator_total c8Wit).2 (by decide) (by decide)⟩

/-- The expression of the C8 counterexample: `0 and foo`. -/
def c8Cex : PExpr := .andE (.num 0) (.pname "foo")

/-- C8 counterexample: `0 and foo` mentions the off-whitelist identifier
foo, yet Python's `and` short-circuits on the falsy 0 and the calculator
returns "0", not an "Error: ..." string — refuting the claim's clause that
any expression using an off-whitelist identifier yields an error. -/
theorem c8_counterexample :
    hasUnknownE c8Cex = true ∧
    evalE c8Cex = .ok (.num 0) ∧
    calculator c8Cex = "0" := by
  refine ⟨by decide, by rfl, by rfl⟩

end CalcM

namespace RemindM

/-!
Embedding of parse_reminder_datetime (notifications/utils.py lines 13-129).
The text is lowercased and stripped, a clock time is captured by the regex
`at\s+(\d{1,2})(?::(\d{2}))?\s*(am|pm)?`, then the patterns are tried in
order: `in N minutes|hours|days|weeks`, the literal "tomorrow", the literal
"today", then a weekday name. Regex search is reproduced as a left-to-right
scan with a deterministic matcher per pattern (none of these regexes needs
backtracking). Times are wall-clock minutes since an epoch Monday 00:00, so
Python's weekday() (Monday = 0) is day mod 7; datetime.replace raises
ValueError on an out-of-range hour or minute, modelled as the `raised`
outcome. The later patterns 5-6 (explicit dates, bare time) and the final
None (lines 131-165) are unreachable whenever a weekday matched; they are
folded into the `fellThrough` marker and no claim depends on them.
-/

/-- Python's regex \s class, ASCII range. -/
def isSp (c : Char) : Bool :=
  c = ' ' || c = '\t' || c = '\n' || c = '\r' || c = '\x0b' || c = '\x0c'

def isDigit (c : Char) : Bool := '0' ≤ c && c ≤ '9'

def digVal (c : Char) : Nat := c.toNat - '0'.toNat

/-- Python str.lower for the ASCII letters (the inputs of every claim). -/
def asciiLower (c : Char) : Char :=
  if 'A' ≤ c && c ≤ 'Z' then Char.ofNat (c.toNat + 32) else c

/-- Python str.strip: drop leading and trailing whitespace. -/
def stripL (cs : List Char) : List Char :=
  ((cs.dropWhile isSp).reverse.dropWhile isSp).reverse

/-- text.lower().strip() as performed at the top of the parser. -/
def normText (text : String) : List Char :=
  stripL (text.toList.map asciiLower)

/-- re.search: try a position matcher at every start position, left to
right, returning the first hit. -/
def scanFirst (f : List Char → Option α) : List Char → Option α
  | [] => f []
  | c :: rest =>
    match f (c :: rest) with
    | some v => some v
    | none => scanFirst f rest

/-- The first list is a prefix of the second. -/
def startsWithL : List Char → List Char → Bool
  | [], _ => true
  | _ :: _, [] => false
  | p :: ps, c :: cs => p = c && startsWithL ps cs

/-- Python `pat in text` substring containment. -/
def hasSubL (pat : List Char) : List Char → Bool
  | [] => startsWithL pat []
  | c :: rest => startsWithL pat (c :: rest) || hasSubL pat rest

/-- Consume `\s+`: at least one whitespace, then greedily all of it. -/
def spaces1 : List Char → Option (List Char)
  | [] => none
  | c :: r => if isSp c then some (r.dropWhile isSp) else none

/-- Consume the optional `(?::(\d{2}))?` group: a colon followed by exactly
two digits, else nothing (minute defaults to 0). -/
def colonMM : List Char → Nat × List Char
  | ':' :: a :: b :: r =>
    if isDigit a && isDigit b then (10 * digVal a + digVal b, r)
    else (0, ':' :: a :: b :: r)
  | l => (0, l)

/-- One match attempt of `at\s+(\d{1,2})(?::(\d{2}))?\s*(am|pm)?` at this
position: hour of one or two digits (greedy), optional :MM, optional am/pm
after optional spaces. Returns (raw hour, minute, am-pm flag with
true = pm). -/
def timeAt : List Char → Option (Nat × Nat × Option Bool)
  | 'a' :: 't' :: r =>
    (match spaces1 r with
     | none => none
     | some r1 =>
       match r1 with
       | [] => none
       | c :: r2 =>
         if isDigit c then
           let hr : Nat × List Char :=
             match r2 with
             | d :: r3 =>
               if isDigit d then (10 * digVal c + digVal d, r3)
               else (digVal c, d :: r3)
             | [] => (digVal c, [])
           let mn := colonMM hr.2
           let r5 := mn.2.dropWhile isSp
           let ap : Option Bool :=
             match r5 with
             | 'a' :: 'm' :: _ => some false
             | 'p' :: 'm' :: _ => some true
             | _ => none
           some (hr.1, mn.1, ap)
         else none)
  | _ => none

/-- The am/pm conversion of the parser (utils.py lines 52-56): pm adds 12
except to 12, am turns 12 into 0. -/
def adjustAmPm : Nat × Nat × Option Bool → Nat × Nat
  | (h, m, some true) => if h ≠ 12 then (h + 12, m) else (h, m)
  | (h, m, some false) => if h = 12 then (0, m) else (h, m)
  | (h, m, none) => (h, m)

/-- extracted_time: the first time match in the text, am/pm applied. -/
def findTime (cs : List Char) : Option (Nat × Nat) :=
  (scanFirst timeAt cs).map adjustAmPm

inductive TUnit where
  | minutes
  | hours
  | days
  | weeks
deriving DecidableEq, Repr

/-- The unit alternation `(minute|minutes|hour|hours|day|days|week|weeks)`:
the singular form is tried first and already matches the plural's prefix,
and the code only tests `'minute' in unit` etc., so a prefix test per class
is exact. -/
def unitAt (cs : List Char) : Option TUnit :=
  if startsWithL "minute".toList cs then some .minutes
  else if startsWithL "hour".toList cs then some .hours
  else if startsWithL "day".toList cs then some .days
  else if startsWithL "week".toList cs then some .weeks
  else none

/-- Consume `\d+` greedily, returning its value. -/
def digitsMany : List Char → Option (Nat × List Char)
  | [] => none
  | c :: r =>
    if isDigit c then
      some (((c :: r).takeWhile isDigit).foldl (fun a d => 10 * a + digVal d) 0,
            (c :: r).dropWhile isDigit)
    else none

/-- One match attempt of `in\s+(\d+)\s+(minute|...|weeks)` at this
position. -/
def relativeAt : List Char → Option (Nat × TUnit)
  | 'i' :: 'n' :: r =>
    (match spaces1 r with
     | none => none
     | some r1 =>
       match digitsMany r1 with
       | none => none
       | some (n, r2) =>
         match spaces1 r2 with
         | none => none
         | some r3 =>
           match unitAt r3 with
           | none => none
           | some u => some (n, u))
  | _ => none

def findRelative (cs : List Char) : Option (Nat × TUnit) :=
  scanFirst relativeAt cs

/-- The weekdays dict (utils.py lines 105-113) in insertion order, as the
`for day_name, day_num in weekdays.items()` loop iterates it. -/
def weekdayTable : List (List Char × Int) :=
  [("monday".toList, 0), ("mon".toList, 0),
   ("tuesday".toList, 1), ("tue".toList, 1), ("tues".toList, 1),
   ("wednesday".toList, 2), ("wed".toList, 2),
   ("thursday".toList, 3), ("thu".toList, 3), ("thur".toList, 3),
   ("thurs".toList, 3),
   ("friday".toList, 4), ("fri".toList, 4),
   ("saturday".toList, 5), ("sat".toList, 5),
   ("sunday".toList, 6), ("sun".toList, 6)]

def findWeekdayGo : List (List Char × Int) → List Char → Option Int
  | [], _ => none
  | (nm, d) :: rest, cs =>
    if hasSubL nm cs then some d else findWeekdayGo rest cs

/-- The first weekday name contained in the text, in dict order. -/
def findWeekday (cs : List Char) : Option Int :=
  findWeekdayGo weekdayTable cs

/-- Calendar day index of a minute timestamp (epoch day 0 is a Monday). -/
def dayOf (t : Int) : Int := t / 1440

/-- Python datetime.weekday(): Monday = 0. -/
def weekdayOf (t : Int) : Int := dayOf t % 7

def hourOf (t : Int) : Int := t % 1440 / 60

def minuteOf (t : Int) : Int := t % 60

/-- datetime.replace(hour, minute, second=0, microsecond=0): same calendar
date with the new time of day; raises ValueError (none here) when the hour
or minute is out of range. -/
def pyReplace (t : Int) (h m : Nat) : Option Int :=
  if h ≤ 23 ∧ m ≤ 59 then some (dayOf t * 1440 + h * 60 + m) else none

inductive ParseOut where
  | ret (t : Int)
  | raised
  | fellThrough
deriving DecidableEq, Repr

/-- The shared "return result.replace(extracted-or-default time)" step of
patterns 1 (days/weeks), 2, 3 (no-time branch) and 4. -/
def retReplace (t : Int) (et : Option (Nat × Nat)) : ParseOut :=
  match pyReplace t (et.getD (7, 0)).1 (et.getD (7, 0)).2 with
  | some r => .ret r
  | none => .raised

/-- Embeds parse_reminder_datetime (utils.py lines 13-129) through pattern 4
(weekday); see the section comment for the fellThrough cut. -/
def parse_reminder_datetime (text : String) (now : Int) : ParseOut :=
  let t := normText text
  let et := findTime t
  match findRelative t with
  | some (n, .minutes) => .ret (now + n)
  | some (n, .hours) => .ret (now + 60 * n)
  | some (n, .days) => retReplace (now + 1440 * n) et
  | some (n, .weeks) => retReplace (now + 10080 * n) et
  | none =>
    if hasSubL "tomorrow".toList t then retReplace (now + 1440) et
    else if hasSubL "today".toList t then
      match et with
      | some (h, m) =>
        (match pyReplace now h m with
         | some r => .ret r
         | none => .raised)
      | none =>
        if 7 ≤ hourOf now then .ret (now + 60)
        else retReplace now none
    else
      match findWeekday t with
      | some d =>
        let a0 := d - weekdayOf now
        let a := if hasSubL "next".toList t = true ∨ a0 ≤ 0 then a0 + 7 else a0
        retReplace (now + 1440 * a) et
      | none => .fellThrough

theorem findWeekdayGo_range :
    ∀ (tbl : List (List Char × Int)) (cs : List Char) (d : Int),
      (∀ p ∈ tbl, 0 ≤ p.2 ∧ p.2 < 7) → findWeekdayGo tbl cs = some d →
      0 ≤ d ∧ d < 7
  | [], _, _, _, h => by simp [findWeekdayGo] at h
  | (nm, dd) :: rest, cs, d, hall, h => by
    simp only [findWeekdayGo] at h
    by_cases hs : hasSubL nm cs
    · rw [if_pos hs] at h
      obtain rfl : dd = d := by simpa using h
      simpa using hall (nm, dd) (by simp)
    · rw [if_neg hs] at h
      exact findWeekdayGo_range rest cs d (fun p hp => hall p (by simp [hp])) h

theorem findWeekday_range (cs : List Char) (d : Int)
    (h : findWeekday cs = some d) : 0 ≤ d ∧ d < 7 :=
  findWeekdayGo_range weekdayTable cs d (by decide) h

theorem retReplace_spec (t : Int) (et : Option (Nat × Nat))
    (h1 : (et.getD (7, 0)).1 ≤ 23) (h2 : (et.getD (7, 0)).2 ≤ 59) :
    retReplace t et
      = .ret (dayOf t * 1440 + (et.getD (7, 0)).1 * 60 + (et.getD (7, 0)).2) := by
  simp [retReplace, pyReplace, h1, h2]

/-- C7 (amended): for every text whose normalization contains a weekday name
(the code's dict scan finding day number d), matches none of the earlier
patterns, and whose captured "at" time — when present — is a valid time of
day after am/pm conversion (hour at most 23, minute at most 59; an invalid
one makes datetime.replace raise ValueError), the parser returns a datetime
whose weekday is d, strictly in the future, between 1 and 13 calendar days
ahead, with 7 extra days added when "next" occurs in the text or the raw
offset is zero or negative, at the captured time of day or the 07:00
default. -/
theorem c7_weekday_parse (text : String) (now : Int) (d : Int)
    (h1 : findRelative (normText text) = none)
    (h2 : hasSubL "tomorrow".toList (normText text) = false)
    (h3 : hasSubL "today".toList (normText text) = false)
    (h4 : findWeekday (normText text) = some d)
    (h5 : ((findTime (normText text)).getD (7, 0)).1 ≤ 23)
    (h6 : ((findTime (normText text)).getD (7, 0)).2 ≤ 59) :
    ∃ r : Int,
      parse_reminder_datetime text now = .ret r ∧
      weekdayOf r = d ∧
      now < r ∧
      1 ≤ dayOf r - dayOf now ∧ dayOf r - dayOf now ≤ 13 ∧
      (hasSubL "next".toList (normText text) = true ∨ d - weekdayOf now ≤ 0 →
        dayOf r - dayOf now = d - weekdayOf now + 7) ∧
      hourOf r = ((findTime (normText text)).getD (7, 0)).1 ∧
      minuteOf r = ((findTime (normText text)).getD (7, 0)).2 := by
  obtain ⟨hd0, hd7⟩ := findWeekday_range _ d h4
  have hparse : parse_reminder_datetime text now
      = retReplace
          (now + 1440 *
            (if hasSubL "next".toList (normText text) = true ∨
                d - weekdayOf now ≤ 0 then
              d - weekdayOf now + 7
            else d - weekdayOf now))
          (findTime (normText text)) := by
    simp only [parse_reminder_datetime, h1, h2, h3, h4]
    rfl
  rw [hparse, retReplace_spec _ _ h5 h6]
  by_cases hc : hasSubL "next".toList (normText text) = true ∨
      d - weekdayOf now ≤ 0
  · rw [if_pos hc]
    refine ⟨_, rfl, ?_, ?_, ?_, ?_, fun hcc => ?_, ?_, ?_⟩ <;>
      simp only [weekdayOf, dayOf, hourOf, minuteOf] at hd0 hd7 ⊢ <;>
      omega
  · rw [if_neg hc]
    have hc2 : ¬ (d - weekdayOf now ≤ 0) := fun hcc => hc (Or.inr hcc)
    refine ⟨_, rfl, ?_, ?_, ?_, ?_, fun hcc => absurd hcc hc, ?_, ?_⟩ <;>
      simp only [weekdayOf, dayOf, hourOf, minuteOf] at hd0 hd7 hc2 ⊢ <;>
      omega

theorem c7_weekday_parse_witness :
    ∃ r : Int,
      parse_reminder_datetime "next monday" 600 = .ret r ∧
      weekdayOf r = 0 ∧
      (600 : Int) < r ∧
      1 ≤ dayOf r - dayOf 600 ∧ dayOf r - dayOf 600 ≤ 13 ∧
      (hasSubL "next".toList (normText "next monday") = true ∨
          (0 : Int) - weekdayOf 600 ≤ 0 →
        dayOf r - dayOf 600 = 0 - weekdayOf 600 + 7) ∧
      hourOf r = ((findTime (normText "next monday")).getD (7, 0)).1 ∧
      minuteOf r = ((findTime (normText "next monday")).getD (7, 0)).2 :=
  c7_weekday_parse "next monday" 600 0
    (by decide) (by decide) (by decide) (by decide) (by decide) (by decide)

/-- C7 counterexample: "monday at 26" contains a weekday name, matches none
of the earlier patterns, and its captured time is hour 26 — datetime.replace
then raises ValueError, so the parser returns no datetime at all (the claim
promised one for every such text). Evaluated at minute 0 of an epoch
Monday. -/
theorem c7_counterexample :
    findRelative (normText "monday at 26") = none ∧
    hasSubL "tomorrow".toList (normText "monday at 26") = false ∧
    hasSubL "today".toList (normText "monday at 26") = false ∧
    findWeekday (normText "monday at 26") = some 0 ∧
    parse_reminder_datetime "monday at 26" 0 = .raised := by
  refine ⟨?_, ?_, ?_, ?_, ?_⟩ <;> decide

end RemindM
